import Mathlib

/-!
Verification of the phase-segmentation engine and thermal-flux estimator of the
mashing-analysis tool (`v3.py` and `pages/1_Phase_Analysis.py`).

The sensor stream is embedded as a list of samples carrying the three columns
the segmentation code reads (`minutes`, `greast_case_weight`,
`sparging_mashing_water_flow`), with exact rational arithmetic in place of
floats.  Pandas row filters become `List.filter`, `.iloc[0]` / `.iloc[-1]`
become head / last of the filtered list, `.diff()` becomes an explicit scan
carrying the previous row, and `.idxmin()` becomes a first-occurrence-minimum
fold.  The thermal estimator is embedded over rows whose columns are
`Option ℚ` (`none` plays the role of a pandas missing value / NaN), with
multiplication by a missing value yielding a missing value, exactly as NaN
propagates through float multiplication.
-/

/-- One sensor sample: the columns of the mashing dataframe that the
segmentation functions read.  `minutes` is elapsed time since batch start. -/
structure Sample where
  minutes : ℚ
  greast_case_weight : ℚ
  sparging_mashing_water_flow : ℚ
  deriving DecidableEq, Repr

/-- The tail of the derived `grist_flow` column:
`-batch['greast_case_weight'].diff()` clamped below at 0, i.e. for each row
`max(prev_weight - cur_weight, 0)`, carrying the previous row explicitly. -/
def grist_flow_from (prev : Sample) : List Sample → List ℚ
  | [] => []
  | s :: rest =>
      max (prev.greast_case_weight - s.greast_case_weight) 0 :: grist_flow_from s rest

/-- The `grist_flow` column: `.diff()` leaves NaN at the first row, which
`.fillna(0)` turns into 0; later rows are the clamped negated differential. -/
def grist_flow_col : List Sample → List ℚ
  | [] => []
  | s :: rest => 0 :: grist_flow_from s rest

/-- The augmented dataframe `batch_mashing` after the `grist_flow` column has
been written to the private copy: each row paired with its grist flow. -/
def grist_rows (b : List Sample) : List (Sample × ℚ) :=
  b.zip (grist_flow_col b)

/-- `batch_mashing['minutes'].min()` (junk value 0 on the empty frame, which
the pandas code reaches only with NaN results; see the `_pd` variant). -/
def process_start : List Sample → ℚ
  | [] => 0
  | s :: rest => rest.foldl (fun a t => min a t.minutes) s.minutes

/-- `batch_mashing['minutes'].max()` (junk value 0 on the empty frame). -/
def process_end : List Sample → ℚ
  | [] => 0
  | s :: rest => rest.foldl (fun a t => max a t.minutes) s.minutes

/-- First-occurrence minimum of `greast_case_weight` (`Series.idxmin` keeps
the first row attaining the minimum), as a fold over the remaining rows. -/
def idxmin_row (best : Sample) : List Sample → Sample
  | [] => best
  | s :: rest =>
      idxmin_row (if s.greast_case_weight < best.greast_case_weight then s else best) rest

/-- `batch_mashing.loc[batch_mashing['greast_case_weight'].idxmin(), 'minutes']`. -/
def idxmin_weight_minutes : List Sample → ℚ
  | [] => 0
  | s :: rest => (idxmin_row s rest).minutes

/-! ### detect_phases_new (v3.py lines 168-280): strict thresholds 0.5 / 200 -/

/-- Phase-1 scan `batch_mashing[batch_mashing['grist_flow'] > 0.5]`. -/
def new_p1_scan (b : List Sample) : List (Sample × ℚ) :=
  (grist_rows b).filter (fun r => decide ((1 / 2 : ℚ) < r.2))

/-- Phase-1 boundary: first grist-active sample time, else `process_start + 5`. -/
def new_p1_end (b : List Sample) : ℚ :=
  match new_p1_scan b with
  | [] => process_start b + 5
  | r :: _ => r.1.minutes

/-- Phase-2 window `batch_mashing[batch_mashing['minutes'] >= p2_start]`. -/
def new_p2_grist_data (b : List Sample) : List (Sample × ℚ) :=
  (grist_rows b).filter (fun r => decide (new_p1_end b ≤ r.1.minutes))

/-- Phase-2 active rows `grist_data[grist_data['grist_flow'] > 0.5]`. -/
def new_p2_active (b : List Sample) : List (Sample × ℚ) :=
  (new_p2_grist_data b).filter (fun r => decide ((1 / 2 : ℚ) < r.2))

/-- Phase-2 boundary: last active grist time + 1; if no active rows, the time
of the global weight minimum; if the window itself is empty, `p2_start + 10`. -/
def new_p2_end (b : List Sample) : ℚ :=
  match new_p2_grist_data b with
  | [] => new_p1_end b + 10
  | _ :: _ =>
      match (new_p2_active b).getLast? with
      | some r => r.1.minutes + 1
      | none => idxmin_weight_minutes b

/-- Phase-3 window `batch_mashing[batch_mashing['minutes'] > p3_start]`. -/
def new_p3_post_grist (b : List Sample) : List Sample :=
  b.filter (fun s => decide (new_p2_end b < s.minutes))

/-- Phase-3 scan `post_grist[post_grist['sparging_mashing_water_flow'] > 200]`. -/
def new_p3_scan (b : List Sample) : List Sample :=
  (new_p3_post_grist b).filter (fun s => decide ((200 : ℚ) < s.sparging_mashing_water_flow))

/-- Phase-3 boundary: first high-flow time, else `min(p3_start + 60, process_end)`. -/
def new_p3_end (b : List Sample) : ℚ :=
  match new_p3_scan b with
  | [] => min (new_p2_end b + 60) (process_end b)
  | s :: _ => s.minutes

/-- Phase-4 window `batch_mashing[batch_mashing['minutes'] >= p4_start]`. -/
def new_p4_sparge_data (b : List Sample) : List Sample :=
  b.filter (fun s => decide (new_p3_end b ≤ s.minutes))

/-- Phase-4 high-flow rows `sparge_data[... > 200]`. -/
def new_p4_high (b : List Sample) : List Sample :=
  (new_p4_sparge_data b).filter (fun s => decide ((200 : ℚ) < s.sparging_mashing_water_flow))

/-- Rows of the high-flow frame whose `minutes.diff()` exceeds 3 (the first
row's diff is NaN, which the `> 3` filter drops), in order. -/
def gap_rows3 (prev : Sample) : List Sample → List Sample
  | [] => []
  | s :: rest =>
      if (3 : ℚ) < s.minutes - prev.minutes then s :: gap_rows3 s rest
      else gap_rows3 s rest

/-- Phase-4 boundary: first flow gap minus 1; else first low-flow (< 50) time
after the first high-flow row; else last high-flow time + 2; if no high flow
at all, `min(p4_start + 15, process_end)`. -/
def new_p4_end (b : List Sample) : ℚ :=
  match new_p4_high b with
  | [] => min (new_p3_end b + 15) (process_end b)
  | h0 :: hrest =>
      match gap_rows3 h0 hrest with
      | g :: _ => g.minutes - 1
      | [] =>
          match ((new_p4_sparge_data b).filter (fun s => decide (h0.minutes < s.minutes))).filter
              (fun s => decide (s.sparging_mashing_water_flow < (50 : ℚ))) with
          | l :: _ => l.minutes
          | [] => ((h0 :: hrest).getLast (List.cons_ne_nil h0 hrest)).minutes + 2

/-- Phase-5 window `batch_mashing[batch_mashing['minutes'] > p5_start]`. -/
def new_p5_post_sparge (b : List Sample) : List Sample :=
  b.filter (fun s => decide (new_p4_end b < s.minutes))

/-- Phase-5 scan `post_sparge[... > 200]`. -/
def new_p5_scan (b : List Sample) : List Sample :=
  (new_p5_post_sparge b).filter (fun s => decide ((200 : ℚ) < s.sparging_mashing_water_flow))

/-- Phase-5 boundary: first second-sparge time minus 1, else
`min(p5_start + 30, process_end)`. -/
def new_p5_end (b : List Sample) : ℚ :=
  match new_p5_scan b with
  | s :: _ => s.minutes - 1
  | [] => min (new_p4_end b + 30) (process_end b)

/-- Phase-6 window `batch_mashing[batch_mashing['minutes'] >= p6_start]`. -/
def new_p6_post (b : List Sample) : List Sample :=
  b.filter (fun s => decide (new_p5_end b ≤ s.minutes))

/-- Phase-6 high-flow rows `post_p5[... > 200]`. -/
def new_p6_high (b : List Sample) : List Sample :=
  (new_p6_post b).filter (fun s => decide ((200 : ℚ) < s.sparging_mashing_water_flow))

/-- Phase-6 boundary: first low-flow (< 50) time after the last high-flow row
(scanning the whole batch after `last_high`); else `last_high + 5`; if no high
flow at all, `min(p6_start + 20, process_end)`. -/
def new_p6_end (b : List Sample) : ℚ :=
  match (new_p6_high b).getLast? with
  | none => min (new_p5_end b + 20) (process_end b)
  | some lastHigh =>
      match (b.filter (fun s => decide (lastHigh.minutes < s.minutes))).filter
          (fun s => decide (s.sparging_mashing_water_flow < (50 : ℚ))) with
      | l :: _ => l.minutes
      | [] => lastHigh.minutes + 5

/-- One detected phase; `stop` embeds the source dictionary's `end` key. -/
structure Phase where
  name : String
  start : ℚ
  stop : ℚ
  deriving DecidableEq, Repr

/-- `detect_phases_new`: the ordered dictionary of the 7 phases, each start
being the previous phase's end. -/
def detect_phases_new (b : List Sample) : List (ℕ × Phase) :=
  [(1, ⟨"Water Pre-Fill", process_start b, new_p1_end b⟩),
   (2, ⟨"Grist Addition", new_p1_end b, new_p2_end b⟩),
   (3, ⟨"Resting", new_p2_end b, new_p3_end b⟩),
   (4, ⟨"Sparge", new_p3_end b, new_p4_end b⟩),
   (5, ⟨"First Wort", new_p4_end b, new_p5_end b⟩),
   (6, ⟨"Second Sparge", new_p5_end b, new_p6_end b⟩),
   (7, ⟨"Grain Disposal", new_p6_end b, process_end b⟩)]

/-! ### detect_phases (v3.py lines 282-360, identical in
`pages/1_Phase_Analysis.py`): loose thresholds 10 / 300 -/

/-- Phase-1 scan of the loose variant: `grist_flow > 10`. -/
def old_p1_scan (b : List Sample) : List (Sample × ℚ) :=
  (grist_rows b).filter (fun r => decide ((10 : ℚ) < r.2))

/-- Loose-variant phase-1 boundary. -/
def old_p1_end (b : List Sample) : ℚ :=
  match old_p1_scan b with
  | [] => process_start b + 5
  | r :: _ => r.1.minutes

/-- Loose-variant phase-2 boundary: always the global weight minimum's time. -/
def old_p2_end (b : List Sample) : ℚ :=
  idxmin_weight_minutes b

/-- Loose-variant phase-3 scan: strictly after `p2_end`, flow > 300. -/
def old_p3_scan (b : List Sample) : List Sample :=
  (b.filter (fun s => decide (old_p2_end b < s.minutes))).filter
    (fun s => decide ((300 : ℚ) < s.sparging_mashing_water_flow))

/-- Loose-variant phase-3 boundary: first high-flow time, else `p3_start + 45`
(uncapped). -/
def old_p3_end (b : List Sample) : ℚ :=
  match old_p3_scan b with
  | [] => old_p2_end b + 45
  | s :: _ => s.minutes

/-- Loose-variant phase-4 high-flow rows: window `minutes >= p4_start`, flow > 300. -/
def old_p4_high (b : List Sample) : List Sample :=
  (b.filter (fun s => decide (old_p3_end b ≤ s.minutes))).filter
    (fun s => decide ((300 : ℚ) < s.sparging_mashing_water_flow))

/-- Gap rows of the loose variant: `minutes.diff() > 5`. -/
def gap_rows5 (prev : Sample) : List Sample → List Sample
  | [] => []
  | s :: rest =>
      if (5 : ℚ) < s.minutes - prev.minutes then s :: gap_rows5 s rest
      else gap_rows5 s rest

/-- Loose-variant phase-4 boundary: first gap minus 2, else last high-flow + 2,
else `p4_start + 20` (uncapped). -/
def old_p4_end (b : List Sample) : ℚ :=
  match old_p4_high b with
  | [] => old_p3_end b + 20
  | h0 :: hrest =>
      match gap_rows5 h0 hrest with
      | g :: _ => g.minutes - 2
      | [] => ((h0 :: hrest).getLast (List.cons_ne_nil h0 hrest)).minutes + 2

/-- Loose-variant phase-5 scan: strictly after `p5_start`, flow > 300. -/
def old_p5_scan (b : List Sample) : List Sample :=
  (b.filter (fun s => decide (old_p4_end b < s.minutes))).filter
    (fun s => decide ((300 : ℚ) < s.sparging_mashing_water_flow))

/-- Loose-variant phase-5 boundary: first second-sparge time minus 2, else
`min(p5_start + 40, process_end)`. -/
def old_p5_end (b : List Sample) : ℚ :=
  match old_p5_scan b with
  | s :: _ => s.minutes - 2
  | [] => min (old_p4_end b + 40) (process_end b)

/-- Loose-variant phase-6 high-flow rows: window `minutes >= p6_start`, flow > 300. -/
def old_p6_high (b : List Sample) : List Sample :=
  (b.filter (fun s => decide (old_p5_end b ≤ s.minutes))).filter
    (fun s => decide ((300 : ℚ) < s.sparging_mashing_water_flow))

/-- Loose-variant phase-6 boundary: last high-flow time + 5, else
`min(p6_start + 30, process_end)`. -/
def old_p6_end (b : List Sample) : ℚ :=
  match (old_p6_high b).getLast? with
  | some lastHigh => lastHigh.minutes + 5
  | none => min (old_p5_end b + 30) (process_end b)

/-- `detect_phases`: the loose-threshold variant's ordered 7-phase dictionary. -/
def detect_phases (b : List Sample) : List (ℕ × Phase) :=
  [(1, ⟨"Water Pre-Fill", process_start b, old_p1_end b⟩),
   (2, ⟨"Grist Addition", old_p1_end b, old_p2_end b⟩),
   (3, ⟨"Resting", old_p2_end b, old_p3_end b⟩),
   (4, ⟨"Sparge", old_p3_end b, old_p4_end b⟩),
   (5, ⟨"First Wort", old_p4_end b, old_p5_end b⟩),
   (6, ⟨"Second Sparge", old_p5_end b, old_p6_end b⟩),
   (7, ⟨"Grain Disposal", old_p6_end b, process_end b⟩)]

/-- `detect_phases_new` as the pandas pipeline behaves including the empty
frame: on an empty batch `minutes.min()`/`max()` are NaN, every comparison
with NaN is false, so every window is empty, every fallback arithmetic
expression on NaN stays NaN, no `.iloc` or `.idxmin` is reached, and the
function returns the 7 named phases with all boundaries NaN (embedded as
`none`).  On a non-empty batch every boundary is a well-defined rational. -/
def detect_phases_new_pd (b : List Sample) : List (ℕ × String × Option ℚ × Option ℚ) :=
  if b.isEmpty then
    [(1, "Water Pre-Fill", none, none),
     (2, "Grist Addition", none, none),
     (3, "Resting", none, none),
     (4, "Sparge", none, none),
     (5, "First Wort", none, none),
     (6, "Second Sparge", none, none),
     (7, "Grain Disposal", none, none)]
  else
    (detect_phases_new b).map (fun p => (p.1, p.2.name, some p.2.start, some p.2.stop))

/-! ### calculate_heat_available (v3.py lines 362-376, identical in
`pages/1_Phase_Analysis.py`) -/

/-- One row of the frame handed to `calculate_heat_available`; each column is
`Option ℚ`, with `none` embedding a pandas missing value (NaN). -/
structure HRow where
  mashing_sparging_water_temp : Option ℚ
  mashing_temp : Option ℚ
  sparging_mashing_water_flow : Option ℚ
  deriving DecidableEq, Repr

/-- The loop body for row `i`: `delta_T = T_final - T_initial` when both
temperatures are present, else `0`; `Q = (rho * flow_prev/60) * 4.18 * delta_T`
with a missing flow propagating as NaN (`Option.map`), since in floats
`NaN * anything = NaN` even when `delta_T` is 0. -/
def heat_step (prev cur : HRow) : Option ℚ :=
  let delta_T : ℚ :=
    match cur.mashing_temp, prev.mashing_sparging_water_temp with
    | some tf, some ti => tf - ti
    | _, _ => 0
  prev.sparging_mashing_water_flow.map (fun f => 1 * (f / 60) * (418 / 100 : ℚ) * delta_T)

/-- The tail of the `heat_available` column, carrying the previous row. -/
def heat_from (prev : HRow) : List HRow → List (Option ℚ)
  | [] => []
  | r :: rest => heat_step prev r :: heat_from r rest

/-- The `heat_available` column: initialized to 0.0, then each row from index
1 overwritten with `Q`; the first row keeps its 0. -/
def calculate_heat_available : List HRow → List (Option ℚ)
  | [] => []
  | r :: rest => some 0 :: heat_from r rest

/-- The frame `calculate_heat_available` returns: the private copy of the
input with the `heat_available` column appended; original columns untouched. -/
def calculate_heat_available_df (data : List HRow) : List (HRow × Option ℚ) :=
  data.zip (calculate_heat_available data)

/-! ### Helper lemmas -/

/-- The list ordering hypothesis: the batch is pre-sorted by timestamp, hence
its derived `minutes` column is non-decreasing. -/
def minutes_sorted (b : List Sample) : Prop :=
  List.Pairwise (fun u v : Sample => u.minutes ≤ v.minutes) b

lemma foldl_min_le (l : List Sample) : ∀ a : ℚ,
    l.foldl (fun x t => min x t.minutes) a ≤ a := by
  induction l with
  | nil => intro a; exact le_refl a
  | cons s rest ih =>
      intro a
      exact le_trans (ih (min a s.minutes)) (min_le_left _ _)

lemma foldl_min_le_mem (l : List Sample) : ∀ (a : ℚ) (s : Sample), s ∈ l →
    l.foldl (fun x t => min x t.minutes) a ≤ s.minutes := by
  induction l with
  | nil => intro a s hs; cases hs
  | cons t rest ih =>
      intro a s hs
      rcases List.mem_cons.mp hs with rfl | hmem
      · exact le_trans (foldl_min_le rest _) (min_le_right _ _)
      · exact ih _ s hmem

lemma process_start_le_of_mem {b : List Sample} {s : Sample} (hs : s ∈ b) :
    process_start b ≤ s.minutes := by
  cases b with
  | nil => cases hs
  | cons h t =>
      rcases List.mem_cons.mp hs with rfl | hmem
      · exact foldl_min_le t _
      · exact foldl_min_le_mem t _ s hmem

lemma le_foldl_max (l : List Sample) : ∀ a : ℚ,
    a ≤ l.foldl (fun x t => max x t.minutes) a := by
  induction l with
  | nil => intro a; exact le_refl a
  | cons s rest ih =>
      intro a
      exact le_trans (le_max_left _ _) (ih (max a s.minutes))

lemma mem_le_foldl_max (l : List Sample) : ∀ (a : ℚ) (s : Sample), s ∈ l →
    s.minutes ≤ l.foldl (fun x t => max x t.minutes) a := by
  induction l with
  | nil => intro a s hs; cases hs
  | cons t rest ih =>
      intro a s hs
      rcases List.mem_cons.mp hs with rfl | hmem
      · exact le_trans (le_max_right _ _) (le_foldl_max rest _)
      · exact ih _ s hmem

lemma le_process_end_of_mem {b : List Sample} {s : Sample} (hs : s ∈ b) :
    s.minutes ≤ process_end b := by
  cases b with
  | nil => cases hs
  | cons h t =>
      rcases List.mem_cons.mp hs with rfl | hmem
      · exact le_foldl_max t _
      · exact mem_le_foldl_max t _ s hmem

lemma foldl_min_of_forall_le (l : List Sample) : ∀ a : ℚ, (∀ t ∈ l, a ≤ t.minutes) →
    l.foldl (fun x t => min x t.minutes) a = a := by
  induction l with
  | nil => intro a _; rfl
  | cons s rest ih =>
      intro a h
      show rest.foldl (fun x t => min x t.minutes) (min a s.minutes) = a
      rw [min_eq_left (h s (List.mem_cons_self s rest))]
      exact ih a (fun t ht => h t (List.mem_cons_of_mem s ht))

lemma process_start_of_sorted (s : Sample) (rest : List Sample)
    (hsort : minutes_sorted (s :: rest)) : process_start (s :: rest) = s.minutes :=
  foldl_min_of_forall_le rest s.minutes (List.pairwise_cons.mp hsort).1

lemma process_end_of_sorted : ∀ (s : Sample) (rest : List Sample),
    minutes_sorted (s :: rest) →
    process_end (s :: rest) = ((s :: rest).getLast (List.cons_ne_nil s rest)).minutes := by
  intro s rest
  induction rest generalizing s with
  | nil => intro _; rfl
  | cons t ts ih =>
      intro hsort
      have hst : s.minutes ≤ t.minutes :=
        (List.pairwise_cons.mp hsort).1 t (List.mem_cons_self t ts)
      have htail : minutes_sorted (t :: ts) := (List.pairwise_cons.mp hsort).2
      have hstep : process_end (s :: t :: ts) = process_end (t :: ts) := by
        show ts.foldl (fun x u => max x u.minutes) (max s.minutes t.minutes) =
          ts.foldl (fun x u => max x u.minutes) t.minutes
        rw [max_eq_right hst]
      rw [hstep, ih t htail, List.getLast_cons (List.cons_ne_nil t ts)]

lemma mem_of_getLast?_eq_some {α : Type} : ∀ {l : List α} {a : α},
    l.getLast? = some a → a ∈ l := by
  intro l
  induction l with
  | nil => intro a h; cases h
  | cons x xs ih =>
      intro a h
      cases xs with
      | nil =>
          have : x = a := by simpa [List.getLast?] using h
          simp [this]
      | cons y ys =>
          rw [List.getLast?_cons_cons] at h
          exact List.mem_cons_of_mem x (ih h)

lemma gap_rows3_bound {c : ℚ} : ∀ (prev : Sample) (l : List Sample),
    c ≤ prev.minutes → (∀ x ∈ l, c ≤ x.minutes) →
    ∀ g ∈ gap_rows3 prev l, c + 3 < g.minutes := by
  intro prev l
  induction l generalizing prev with
  | nil => intro _ _ g hg; cases hg
  | cons s rest ih =>
      intro hp hl g hg
      have hs : c ≤ s.minutes := hl s (List.mem_cons_self s rest)
      have hrest : ∀ x ∈ rest, c ≤ x.minutes :=
        fun x hx => hl x (List.mem_cons_of_mem s hx)
      rw [gap_rows3] at hg
      by_cases h3 : (3 : ℚ) < s.minutes - prev.minutes
      · rw [if_pos h3] at hg
        rcases List.mem_cons.mp hg with rfl | hmem
        · linarith
        · exact ih s hs hrest g hmem
      · rw [if_neg h3] at hg
        exact ih s hs hrest g hg

lemma grist_flow_from_nonneg (prev : Sample) : ∀ (l : List Sample), ∀ x ∈ grist_flow_from prev l, 0 ≤ x := by
  intro l
  induction l generalizing prev with
  | nil => intro x hx; cases hx
  | cons s rest ih =>
      intro x hx
      rw [grist_flow_from] at hx
      rcases List.mem_cons.mp hx with rfl | hmem
      · exact le_max_right _ _
      · exact ih s x hmem

lemma grist_flow_from_length (prev : Sample) : ∀ l : List Sample,
    (grist_flow_from prev l).length = l.length := by
  intro l
  induction l generalizing prev with
  | nil => rfl
  | cons s rest ih => simp [grist_flow_from, ih]

lemma grist_flow_col_length (b : List Sample) : (grist_flow_col b).length = b.length := by
  cases b with
  | nil => rfl
  | cons s rest => simp [grist_flow_col, grist_flow_from_length]

lemma heat_from_length (prev : HRow) : ∀ l : List HRow,
    (heat_from prev l).length = l.length := by
  intro l
  induction l generalizing prev with
  | nil => rfl
  | cons r rest ih => simp [heat_from, ih]

lemma calculate_heat_available_length (data : List HRow) :
    (calculate_heat_available data).length = data.length := by
  cases data with
  | nil => rfl
  | cons r rest => simp [calculate_heat_available, heat_from_length]

lemma grist_flow_from_getElem? (prev : Sample) : ∀ (l : List Sample) (i : ℕ)
    (hi : i < l.length),
    (grist_flow_from prev l)[i]? =
      some (max (((prev :: l).get ⟨i, Nat.lt_succ_of_lt hi⟩).greast_case_weight -
        (l.get ⟨i, hi⟩).greast_case_weight) 0) := by
  intro l
  induction l generalizing prev with
  | nil => intro i hi; cases hi
  | cons s rest ih =>
      intro i hi
      cases i with
      | zero => simp [grist_flow_from]
      | succ j =>
          have hj : j < rest.length := Nat.lt_of_succ_lt_succ hi
          have h2 := ih s j hj
          rw [grist_flow_from, List.getElem?_cons_succ]
          exact h2

lemma heat_from_getElem? (prev : HRow) : ∀ (l : List HRow) (i : ℕ)
    (hi : i < l.length),
    (heat_from prev l)[i]? =
      some (heat_step ((prev :: l).get ⟨i, Nat.lt_succ_of_lt hi⟩) (l.get ⟨i, hi⟩)) := by
  intro l
  induction l generalizing prev with
  | nil => intro i hi; cases hi
  | cons r rest ih =>
      intro i hi
      cases i with
      | zero => simp [heat_from]
      | succ j =>
          have hj : j < rest.length := Nat.lt_of_succ_lt_succ hi
          have h2 := ih r j hj
          rw [heat_from, List.getElem?_cons_succ]
          exact h2

lemma new_p3_end_le_process_end (b : List Sample) : new_p3_end b ≤ process_end b := by
  cases h : new_p3_scan b with
  | nil =>
      simp only [new_p3_end, h]
      exact min_le_right _ _
  | cons s t =>
      simp only [new_p3_end, h]
      have hs : s ∈ new_p3_scan b := by rw [h]; exact List.mem_cons_self s t
      have hb : s ∈ b :=
        (List.mem_filter.mp (List.mem_filter.mp hs).1).1
      exact le_process_end_of_mem hb

lemma new_p5_end_le_process_end (b : List Sample) : new_p5_end b ≤ process_end b := by
  cases h : new_p5_scan b with
  | nil =>
      simp only [new_p5_end, h]
      exact min_le_right _ _
  | cons s t =>
      simp only [new_p5_end, h]
      have hs : s ∈ new_p5_scan b := by rw [h]; exact List.mem_cons_self s t
      have hb : s ∈ b :=
        (List.mem_filter.mp (List.mem_filter.mp hs).1).1
      have := le_process_end_of_mem hb
      linarith

/-! ### Claims -/

/-- C1: for every non-empty (timestamp-sorted) batch, `detect_phases_new`
returns exactly 7 phases with ids 1..7 in order, contiguous
(`end[i] == start[i+1]`), with `start[1]` equal to the first sample's elapsed
time and `end[7]` equal to the last sample's elapsed time. -/
theorem C1_seven_contiguous_phases (b : List Sample) (hb : b ≠ [])
    (hsort : minutes_sorted b) :
    (detect_phases_new b).map Prod.fst = [1, 2, 3, 4, 5, 6, 7] ∧
    ((detect_phases_new b).zip (detect_phases_new b).tail).all
      (fun pq => decide (pq.1.2.stop = pq.2.2.start)) = true ∧
    (detect_phases_new b).head?.map (fun p => p.2.start) = some ((b.head hb).minutes) ∧
    (detect_phases_new b).getLast?.map (fun p => p.2.stop) =
      some ((b.getLast hb).minutes) := by
  refine ⟨by simp [detect_phases_new], by simp [detect_phases_new], ?_, ?_⟩
  · cases b with
    | nil => exact absurd rfl hb
    | cons s rest =>
        simp only [detect_phases_new, List.head?_cons, List.head_cons]
        rw [process_start_of_sorted s rest hsort]
        rfl
  · cases b with
    | nil => exact absurd rfl hb
    | cons s rest =>
        simp only [detect_phases_new]
        rw [show ((s :: rest).getLast (by exact hb)).minutes =
          ((s :: rest).getLast (List.cons_ne_nil s rest)).minutes from rfl]
        rw [← process_end_of_sorted s rest hsort]
        rfl

/-- Witness for C1 at a concrete sorted two-sample batch. -/
theorem C1_witness :
    (detect_phases_new [⟨0, 100, 0⟩, ⟨2, 100, 0⟩]).map Prod.fst = [1, 2, 3, 4, 5, 6, 7] :=
  (C1_seven_contiguous_phases [⟨0, 100, 0⟩, ⟨2, 100, 0⟩] (by simp)
    (by norm_num [minutes_sorted])).1

/-- C2 (amended): phases 1, 4 and 6 always satisfy `end >= start`; the claim
fails for phase 2 (see the counterexample), whose minimum-weight fallback can
precede the phase start. -/
theorem C2_amended_monotone_phases (b : List Sample) (_hb : b ≠ []) :
    process_start b ≤ new_p1_end b ∧
    new_p3_end b ≤ new_p4_end b ∧
    new_p5_end b ≤ new_p6_end b := by
  refine ⟨?_, ?_, ?_⟩
  · cases h : new_p1_scan b with
    | nil =>
        simp only [new_p1_end, h]
        linarith [le_refl (process_start b)]
    | cons r t =>
        simp only [new_p1_end, h]
        have hr : r ∈ new_p1_scan b := by rw [h]; exact List.mem_cons_self r t
        have hz : r ∈ grist_rows b := (List.mem_filter.mp hr).1
        have hmem : r.1 ∈ b := by
          obtain ⟨rs, rq⟩ := r
          exact (List.of_mem_zip hz).1
        exact process_start_le_of_mem hmem
  · cases h : new_p4_high b with
    | nil =>
        simp only [new_p4_end, h]
        exact le_min (by linarith) (new_p3_end_le_process_end b)
    | cons h0 hrest =>
        have hall : ∀ x ∈ h0 :: hrest, new_p3_end b ≤ x.minutes := by
          intro x hx
          have hx2 : x ∈ new_p4_high b := by rw [h]; exact hx
          have hx3 : x ∈ new_p4_sparge_data b := (List.mem_filter.mp hx2).1
          exact of_decide_eq_true (List.mem_filter.mp hx3).2
        simp only [new_p4_end, h]
        cases hg : gap_rows3 h0 hrest with
        | cons g gt =>
            have hgm : g ∈ gap_rows3 h0 hrest := by
              rw [hg]; exact List.mem_cons_self g gt
            have := gap_rows3_bound h0 hrest
              (hall h0 (List.mem_cons_self h0 hrest))
              (fun x hx => hall x (List.mem_cons_of_mem h0 hx)) g hgm
            show new_p3_end b ≤ g.minutes - 1
            linarith
        | nil =>
            cases hl : ((new_p4_sparge_data b).filter
                (fun s => decide (h0.minutes < s.minutes))).filter
                (fun s => decide (s.sparging_mashing_water_flow < (50 : ℚ))) with
            | cons l lt =>
                have hlm : l ∈ ((new_p4_sparge_data b).filter
                    (fun s => decide (h0.minutes < s.minutes))).filter
                    (fun s => decide (s.sparging_mashing_water_flow < (50 : ℚ))) := by
                  rw [hl]; exact List.mem_cons_self l lt
                have hl2 : l ∈ (new_p4_sparge_data b).filter
                    (fun s => decide (h0.minutes < s.minutes)) := (List.mem_filter.mp hlm).1
                have hl3 : l ∈ new_p4_sparge_data b := (List.mem_filter.mp hl2).1
                have := of_decide_eq_true (List.mem_filter.mp hl3).2
                exact this
            | nil =>
                have hlast : ((h0 :: hrest).getLast (List.cons_ne_nil h0 hrest)) ∈
                    h0 :: hrest := List.getLast_mem (List.cons_ne_nil h0 hrest)
                have := hall _ hlast
                show new_p3_end b ≤
                  ((h0 :: hrest).getLast (List.cons_ne_nil h0 hrest)).minutes + 2
                linarith
  · cases h : (new_p6_high b).getLast? with
    | none =>
        simp only [new_p6_end, h]
        exact le_min (by linarith) (new_p5_end_le_process_end b)
    | some lastHigh =>
        have hm : lastHigh ∈ new_p6_high b := mem_of_getLast?_eq_some h
        have hm2 : lastHigh ∈ new_p6_post b := (List.mem_filter.mp hm).1
        have hge : new_p5_end b ≤ lastHigh.minutes :=
          of_decide_eq_true (List.mem_filter.mp hm2).2
        simp only [new_p6_end, h]
        cases hl : (b.filter (fun s => decide (lastHigh.minutes < s.minutes))).filter
            (fun s => decide (s.sparging_mashing_water_flow < (50 : ℚ))) with
        | cons l lt =>
            have hlm : l ∈ (b.filter (fun s => decide (lastHigh.minutes < s.minutes))).filter
                (fun s => decide (s.sparging_mashing_water_flow < (50 : ℚ))) := by
              rw [hl]; exact List.mem_cons_self l lt
            have hl2 : l ∈ b.filter (fun s => decide (lastHigh.minutes < s.minutes)) :=
              (List.mem_filter.mp hlm).1
            have := of_decide_eq_true (List.mem_filter.mp hl2).2
            show new_p5_end b ≤ l.minutes
            linarith
        | nil =>
            show new_p5_end b ≤ lastHigh.minutes + 5
            linarith

/-- Witness for C2 at a concrete one-sample batch. -/
theorem C2_amended_witness :
    process_start [(⟨0, 100, 0⟩ : Sample)] ≤ new_p1_end [(⟨0, 100, 0⟩ : Sample)] ∧
    new_p3_end [(⟨0, 100, 0⟩ : Sample)] ≤ new_p4_end [(⟨0, 100, 0⟩ : Sample)] ∧
    new_p5_end [(⟨0, 100, 0⟩ : Sample)] ≤ new_p6_end [(⟨0, 100, 0⟩ : Sample)] :=
  C2_amended_monotone_phases [⟨0, 100, 0⟩] (by simp)

/-- C2 counterexample: on a 2-sample batch with rising vessel weight (no grist
movement), phase 2 of `detect_phases_new` is `start = 5`, `end = 0` (phase 1
falls back to `start + 5`, phase 2's global-minimum-weight fallback points
back to minute 0), so `end[2] >= start[2]` fails. -/
theorem C2_counterexample :
    (detect_phases_new [⟨0, 100, 0⟩, ⟨10, 200, 0⟩])[1]?.map
      (fun p => (p.1, p.2.start, p.2.stop)) = some (2, 5, 0) ∧ ¬ ((5 : ℚ) ≤ 0) := by
  have h1 : new_p1_end [(⟨0, 100, 0⟩ : Sample), ⟨10, 200, 0⟩] = 5 := by
    norm_num [new_p1_end, new_p1_scan, grist_rows, grist_flow_col, grist_flow_from,
      process_start]
  have h2 : new_p2_end [(⟨0, 100, 0⟩ : Sample), ⟨10, 200, 0⟩] = 0 := by
    norm_num [new_p2_end, new_p2_grist_data, new_p2_active, h1, grist_rows,
      grist_flow_col, grist_flow_from, idxmin_weight_minutes, idxmin_row]
  constructor
  · simp [detect_phases_new, h1, h2]
  · norm_num

/-- C3 counterexample: on a single-sample batch with no grist movement, the
phase-1 boundary comes from the fixed-duration fallback (`start + 5`; the
grist scan is empty, so no signal transition was found) and exceeds the last
sample's elapsed time 0. -/
theorem C3_counterexample :
    new_p1_scan [(⟨0, 100, 0⟩ : Sample)] = [] ∧
    new_p1_end [(⟨0, 100, 0⟩ : Sample)] = 5 ∧
    process_end [(⟨0, 100, 0⟩ : Sample)] = 0 ∧
    ¬ (new_p1_end [(⟨0, 100, 0⟩ : Sample)] ≤ process_end [(⟨0, 100, 0⟩ : Sample)]) := by
  have h0 : new_p1_scan [(⟨0, 100, 0⟩ : Sample)] = [] := by
    norm_num [new_p1_scan, grist_rows, grist_flow_col, grist_flow_from]
  have h1 : new_p1_end [(⟨0, 100, 0⟩ : Sample)] = 5 := by
    norm_num [new_p1_end, h0, process_start]
  have h2 : process_end [(⟨0, 100, 0⟩ : Sample)] = 0 := by
    norm_num [process_end]
  refine ⟨h0, h1, h2, ?_⟩
  rw [h1, h2]
  norm_num

/-- C3 (amended): in `detect_phases_new` the fixed-duration fallbacks of
phases 3, 4, 5 and 6 are capped at the batch's overall end time; the phase-1
(`+5`) and phase-2 (`+10`) fallbacks are not capped and can exceed it (see the
counterexample). -/
theorem C3_amended_fallback_caps (b : List Sample) (_hb : b ≠ []) :
    (new_p3_scan b = [] → new_p3_end b ≤ process_end b) ∧
    (new_p4_high b = [] → new_p4_end b ≤ process_end b) ∧
    (new_p5_scan b = [] → new_p5_end b ≤ process_end b) ∧
    (new_p6_high b = [] → new_p6_end b ≤ process_end b) := by
  refine ⟨?_, ?_, ?_, ?_⟩
  · intro h
    simp only [new_p3_end, h]
    exact min_le_right _ _
  · intro h
    simp only [new_p4_end, h]
    exact min_le_right _ _
  · intro h
    simp only [new_p5_end, h]
    exact min_le_right _ _
  · intro h
    have h2 : (new_p6_high b).getLast? = none := by rw [h]; rfl
    simp only [new_p6_end, h2]
    exact min_le_right _ _

/-- Witness for C3's amended claim at a concrete one-sample zero-flow batch. -/
theorem C3_amended_witness :
    new_p3_end [(⟨0, 0, 0⟩ : Sample)] ≤ process_end [(⟨0, 0, 0⟩ : Sample)] :=
  (C3_amended_fallback_caps [(⟨0, 0, 0⟩ : Sample)] (by simp)).1 (by
    have h1 : new_p1_end [(⟨0, 0, 0⟩ : Sample)] = 5 := by
      norm_num [new_p1_end, new_p1_scan, grist_rows, grist_flow_col, grist_flow_from,
        process_start]
    have h2 : new_p2_end [(⟨0, 0, 0⟩ : Sample)] = 15 := by
      norm_num [new_p2_end, new_p2_grist_data, new_p2_active, h1, grist_rows,
        grist_flow_col, grist_flow_from]
    norm_num [new_p3_scan, new_p3_post_grist, h2])

/-- C4 counterexample: on the zero-sample batch the pandas pipeline does not
fail with an `EmptyBatchError` (no such error exists in the source): it
returns all 7 phases, with every boundary undefined (NaN, embedded `none`). -/
theorem C4_counterexample :
    detect_phases_new_pd [] =
      [(1, "Water Pre-Fill", none, none), (2, "Grist Addition", none, none),
       (3, "Resting", none, none), (4, "Sparge", none, none),
       (5, "First Wort", none, none), (6, "Second Sparge", none, none),
       (7, "Grain Disposal", none, none)] ∧
    (detect_phases_new_pd []).length = 7 := by
  constructor <;> rfl

/-- C4 (amended): segmentation never fails; on an empty batch it returns 7
phases with undefined (NaN) boundaries, and on every non-empty batch, however
sparse, it returns 7 phases with well-defined boundaries via the fallback
chain. -/
theorem C4_amended_total_segmentation (b : List Sample) (hb : b ≠ []) :
    (detect_phases_new_pd b).map (fun p => p.1) = [1, 2, 3, 4, 5, 6, 7] ∧
    ((detect_phases_new_pd b).all fun p => p.2.2.1.isSome && p.2.2.2.isSome) = true := by
  have hne : b.isEmpty = false := by
    cases b with
    | nil => exact absurd rfl hb
    | cons s rest => rfl
  constructor <;> simp [detect_phases_new_pd, hne, detect_phases_new]

/-- Witness for C4 at a concrete sparse one-sample batch (all signals zero). -/
theorem C4_amended_witness :
    ([(⟨0, 0, 0⟩ : Sample)] ≠ []) ∧
    (detect_phases_new_pd [(⟨0, 0, 0⟩ : Sample)]).map (fun p => p.1) =
      [1, 2, 3, 4, 5, 6, 7] :=
  ⟨by simp, (C4_amended_total_segmentation [(⟨0, 0, 0⟩ : Sample)] (by simp)).1⟩

/-- C5: the derived flow has the same length as the batch, is 0 at the first
sample, equals `max(0, -(vessel_weight[i] - vessel_weight[i-1]))` at every
later sample, and is non-negative everywhere. -/
theorem C5_addition_rate (b : List Sample) (hb : b ≠ []) :
    (grist_flow_col b).length = b.length ∧
    (grist_flow_col b).head? = some 0 ∧
    (∀ (i : ℕ) (hi : i + 1 < b.length),
      (grist_flow_col b)[i + 1]? =
        some (max 0 (-((b.get ⟨i + 1, hi⟩).greast_case_weight -
          (b.get ⟨i, Nat.lt_of_succ_lt hi⟩).greast_case_weight)))) ∧
    (∀ x ∈ grist_flow_col b, 0 ≤ x) := by
  refine ⟨grist_flow_col_length b, ?_, ?_, ?_⟩
  · cases b with
    | nil => exact absurd rfl hb
    | cons s rest => rfl
  · intro i hi
    cases b with
    | nil => cases hi
    | cons s rest =>
        have hj : i < rest.length := Nat.lt_of_succ_lt_succ hi
        have h2 := grist_flow_from_getElem? s rest i hj
        have hstep : (grist_flow_col (s :: rest))[i + 1]? = (grist_flow_from s rest)[i]? := by
          rw [grist_flow_col, List.getElem?_cons_succ]
        rw [hstep, h2, neg_sub, max_comm]
        rfl
  · intro x hx
    cases b with
    | nil => cases hx
    | cons s rest =>
        rw [grist_flow_col] at hx
        rcases List.mem_cons.mp hx with rfl | hmem
        · exact le_refl 0
        · exact grist_flow_from_nonneg s rest x hmem

/-- Witness for C5 at a concrete two-sample batch with a 6 kg weight drop. -/
theorem C5_witness :
    (grist_flow_col [(⟨0, 10, 0⟩ : Sample), ⟨1, 4, 0⟩]).head? = some 0 ∧
    (grist_flow_col [(⟨0, 10, 0⟩ : Sample), ⟨1, 4, 0⟩])[0 + 1]? =
      some (max 0 (-((4 : ℚ) - 10))) :=
  ⟨(C5_addition_rate [⟨0, 10, 0⟩, ⟨1, 4, 0⟩] (by simp)).2.1,
   (C5_addition_rate [⟨0, 10, 0⟩, ⟨1, 4, 0⟩] (by simp)).2.2.1 0 (by norm_num)⟩

/-- C6: for every sample pair with flow and both temperatures present, the
thermal flux is `Q[i] = (water_flow[i-1] / 60) * 4.18 * (mash_temp[i] -
water_temp[i-1])`, and `Q` at the first sample is 0.  The concrete instance
300 L/hr, 20 °C, 65 °C giving exactly 940.5 kJ is the witness. -/
theorem C6_thermal_flux_formula (data : List HRow) (i : ℕ) (hi : i + 1 < data.length)
    (f ti tf : ℚ)
    (hf : (data.get ⟨i, Nat.lt_of_succ_lt hi⟩).sparging_mashing_water_flow = some f)
    (hti : (data.get ⟨i, Nat.lt_of_succ_lt hi⟩).mashing_sparging_water_temp = some ti)
    (htf : (data.get ⟨i + 1, hi⟩).mashing_temp = some tf) :
    (calculate_heat_available data)[i + 1]? =
      some (some (f / 60 * (418 / 100 : ℚ) * (tf - ti))) ∧
    (calculate_heat_available data).head? = some (some 0) := by
  cases data with
  | nil => cases hi
  | cons r rest =>
      have hj : i < rest.length := Nat.lt_of_succ_lt_succ hi
      have h2 := heat_from_getElem? r rest i hj
      constructor
      · have hstep : (calculate_heat_available (r :: rest))[i + 1]? =
            (heat_from r rest)[i]? := by
          rw [calculate_heat_available, List.getElem?_cons_succ]
        rw [hstep, h2]
        have hprev : (r :: rest).get ⟨i, Nat.lt_succ_of_lt hj⟩ =
            (r :: rest).get ⟨i, Nat.lt_of_succ_lt hi⟩ := rfl
        have hcur : rest.get ⟨i, hj⟩ = (r :: rest).get ⟨i + 1, hi⟩ := rfl
        rw [heat_step, hprev, hcur, htf, hti, hf]
        simp [one_mul]
      · rfl

/-- Witness for C6: the spec's literal thermal scenario, 300 L/hr at 20 °C
into 65 °C mash, giving exactly 940.5 = 1881/2 kJ. -/
theorem C6_witness :
    (calculate_heat_available
      [(⟨some 20, none, some 300⟩ : HRow), ⟨none, some 65, none⟩])[0 + 1]? =
      some (some (1881 / 2 : ℚ)) ∧
    (calculate_heat_available
      [(⟨some 20, none, some 300⟩ : HRow), ⟨none, some 65, none⟩]).head? =
      some (some 0) := by
  have h := C6_thermal_flux_formula
    [(⟨some 20, none, some 300⟩ : HRow), ⟨none, some 65, none⟩] 0 (by norm_num)
    300 20 65 rfl rfl rfl
  refine ⟨?_, h.2⟩
  rw [h.1]
  norm_num

/-- C7 counterexample: when `water_temp[i-1]` is missing and `water_flow[i-1]`
is missing as well, `Q[i]` is NaN (embedded `none`), not 0: NaN times the
zeroed temperature difference is still NaN. -/
theorem C7_counterexample :
    (([(⟨none, some 50, none⟩ : HRow), ⟨some 20, some 65, some 100⟩].get
        ⟨0, by norm_num⟩).mashing_sparging_water_temp = none) ∧
    calculate_heat_available [(⟨none, some 50, none⟩ : HRow), ⟨some 20, some 65, some 100⟩] =
      [some 0, none] := by
  constructor <;> rfl

/-- C7 (amended): if `mash_temp[i]` or `water_temp[i-1]` is missing while
`water_flow[i-1]` is present, `Q[i] == 0` exactly; when the flow is missing
too, `Q[i]` is NaN (see the counterexample). -/
theorem C7_amended_zero_flux_on_missing_temp (data : List HRow) (i : ℕ)
    (hi : i + 1 < data.length) (f : ℚ)
    (hf : (data.get ⟨i, Nat.lt_of_succ_lt hi⟩).sparging_mashing_water_flow = some f)
    (hmiss : (data.get ⟨i + 1, hi⟩).mashing_temp = none ∨
      (data.get ⟨i, Nat.lt_of_succ_lt hi⟩).mashing_sparging_water_temp = none) :
    (calculate_heat_available data)[i + 1]? = some (some 0) := by
  cases data with
  | nil => cases hi
  | cons r rest =>
      have hj : i < rest.length := Nat.lt_of_succ_lt_succ hi
      have h2 := heat_from_getElem? r rest i hj
      have hstep : (calculate_heat_available (r :: rest))[i + 1]? =
          (heat_from r rest)[i]? := by
        rw [calculate_heat_available, List.getElem?_cons_succ]
      have hprev : (r :: rest).get ⟨i, Nat.lt_succ_of_lt hj⟩ =
          (r :: rest).get ⟨i, Nat.lt_of_succ_lt hi⟩ := rfl
      have hcur : rest.get ⟨i, hj⟩ = (r :: rest).get ⟨i + 1, hi⟩ := rfl
      rw [hstep, h2, heat_step, hprev, hcur, hf]
      have hdelta : (match ((r :: rest).get ⟨i + 1, hi⟩).mashing_temp,
          ((r :: rest).get ⟨i, Nat.lt_of_succ_lt hi⟩).mashing_sparging_water_temp with
          | some tf, some ti => tf - ti
          | _, _ => (0 : ℚ)) = 0 := by
        rcases hmiss with hm | hm
        · rw [hm]
        · rw [hm]
          cases h3 : ((r :: rest).get ⟨i + 1, hi⟩).mashing_temp <;> rfl
      rw [hdelta]
      simp

/-- Witness for C7's amended claim: flow 60 L/hr present, previous water
temperature missing, so the flux is exactly 0. -/
theorem C7_amended_witness :
    (calculate_heat_available
      [(⟨none, some 50, some 60⟩ : HRow), ⟨some 20, some 65, some 100⟩])[0 + 1]? =
      some (some 0) :=
  C7_amended_zero_flux_on_missing_temp
    [(⟨none, some 50, some 60⟩ : HRow), ⟨some 20, some 65, some 100⟩] 0 (by norm_num)
    60 rfl (Or.inr rfl)

/-- Modelled from the claim's words (for comparison only): the phase-2 scan
window restricted to samples strictly after the phase-1 boundary
(`minutes > p2_start` instead of the source's `>=`), the rest unchanged. -/
def new_p2_grist_data_strict (b : List Sample) : List (Sample × ℚ) :=
  (grist_rows b).filter (fun r => decide (new_p1_end b < r.1.minutes))

/-- Modelled from the claim's words (for comparison only): phase-2 boundary
computed over the strictly-after window. -/
def new_p2_end_strict (b : List Sample) : ℚ :=
  match new_p2_grist_data_strict b with
  | [] => new_p1_end b + 10
  | _ :: _ =>
      match ((new_p2_grist_data_strict b).filter
          (fun r => decide ((1 / 2 : ℚ) < r.2))).getLast? with
      | some r => r.1.minutes + 1
      | none => idxmin_weight_minutes b

/-- C8 counterexample: on a 3-sample batch whose only grist-active sample sits
exactly at the phase-1 boundary (elapsed 1 = `p1_end`, hence not strictly
after it), that sample is in the phase-2 scan's active set and determines
`p2_end = 2`; restricting the scan to samples strictly after the boundary
yields `p2_end = 1` instead, so a sample with elapsed time <= the previous
phase's end does contribute to the detected transition. -/
theorem C8_counterexample :
    new_p1_end [(⟨0, 100, 0⟩ : Sample), ⟨1, 90, 0⟩, ⟨2, 90, 0⟩] = 1 ∧
    ((⟨1, 90, 0⟩ : Sample), (10 : ℚ)) ∈
      new_p2_active [(⟨0, 100, 0⟩ : Sample), ⟨1, 90, 0⟩, ⟨2, 90, 0⟩] ∧
    new_p2_end [(⟨0, 100, 0⟩ : Sample), ⟨1, 90, 0⟩, ⟨2, 90, 0⟩] = 2 ∧
    new_p2_end_strict [(⟨0, 100, 0⟩ : Sample), ⟨1, 90, 0⟩, ⟨2, 90, 0⟩] = 1 := by
  have h1 : new_p1_end [(⟨0, 100, 0⟩ : Sample), ⟨1, 90, 0⟩, ⟨2, 90, 0⟩] = 1 := by
    norm_num [new_p1_end, new_p1_scan, grist_rows, grist_flow_col, grist_flow_from]
  have hgd : new_p2_grist_data [(⟨0, 100, 0⟩ : Sample), ⟨1, 90, 0⟩, ⟨2, 90, 0⟩] =
      [(⟨1, 90, 0⟩, 10), (⟨2, 90, 0⟩, 0)] := by
    norm_num [new_p2_grist_data, grist_rows, grist_flow_col, grist_flow_from, h1]
  have hact : new_p2_active [(⟨0, 100, 0⟩ : Sample), ⟨1, 90, 0⟩, ⟨2, 90, 0⟩] =
      [(⟨1, 90, 0⟩, 10)] := by
    norm_num [new_p2_active, hgd]
  have h2 : new_p2_end [(⟨0, 100, 0⟩ : Sample), ⟨1, 90, 0⟩, ⟨2, 90, 0⟩] = 2 := by
    rw [new_p2_end, hgd]
    norm_num [hact]
  have hgds : new_p2_grist_data_strict [(⟨0, 100, 0⟩ : Sample), ⟨1, 90, 0⟩, ⟨2, 90, 0⟩] =
      [(⟨2, 90, 0⟩, 0)] := by
    norm_num [new_p2_grist_data_strict, grist_rows, grist_flow_col, grist_flow_from, h1]
  have h3 : new_p2_end_strict [(⟨0, 100, 0⟩ : Sample), ⟨1, 90, 0⟩, ⟨2, 90, 0⟩] = 1 := by
    rw [new_p2_end_strict, hgds]
    norm_num [idxmin_weight_minutes, idxmin_row]
  exact ⟨h1, by rw [hact]; exact List.mem_cons_self _ _, h2, h3⟩

/-- C8 (amended): the phase-3 and phase-5 scans examine only samples strictly
after the previous boundary, while the phase-2, phase-4 and phase-6 windows
include samples at exactly the boundary time (`>=`); phase 2's minimum-weight
fallback additionally examines the entire batch (see the counterexample). -/
theorem C8_amended_scan_windows (b : List Sample) (_hb : b ≠ []) :
    ((new_p3_post_grist b).all fun s => decide (new_p2_end b < s.minutes)) = true ∧
    ((new_p5_post_sparge b).all fun s => decide (new_p4_end b < s.minutes)) = true ∧
    ((new_p2_grist_data b).all fun r => decide (new_p1_end b ≤ r.1.minutes)) = true ∧
    ((new_p4_sparge_data b).all fun s => decide (new_p3_end b ≤ s.minutes)) = true ∧
    ((new_p6_post b).all fun s => decide (new_p5_end b ≤ s.minutes)) = true := by
  refine ⟨?_, ?_, ?_, ?_, ?_⟩ <;>
    (rw [List.all_eq_true]; intro x hx; exact (List.mem_filter.mp hx).2)

/-- Witness for C8's amended claim at a concrete three-sample batch. -/
theorem C8_amended_witness :
    ((new_p3_post_grist [(⟨0, 100, 0⟩ : Sample), ⟨1, 90, 0⟩, ⟨10, 90, 0⟩]).all
      fun s => decide (new_p2_end [(⟨0, 100, 0⟩ : Sample), ⟨1, 90, 0⟩, ⟨10, 90, 0⟩] <
        s.minutes)) = true :=
  (C8_amended_scan_windows [(⟨0, 100, 0⟩ : Sample), ⟨1, 90, 0⟩, ⟨10, 90, 0⟩] (by simp)).1

/-- C9: the two historical threshold variants are not extensionally equal: on
a 3-sample batch with a 5 kg grist movement, the strict variant detects the
phase-1 boundary at minute 1 (`grist_flow > 0.5`) while the loose variant
(`grist_flow > 10`) finds nothing and falls back to minute 5. -/
theorem C9_threshold_variants_differ :
    new_p1_end [(⟨0, 100, 0⟩ : Sample), ⟨1, 95, 0⟩, ⟨2, 95, 0⟩] = 1 ∧
    old_p1_end [(⟨0, 100, 0⟩ : Sample), ⟨1, 95, 0⟩, ⟨2, 95, 0⟩] = 5 ∧
    detect_phases_new [(⟨0, 100, 0⟩ : Sample), ⟨1, 95, 0⟩, ⟨2, 95, 0⟩] ≠
      detect_phases [(⟨0, 100, 0⟩ : Sample), ⟨1, 95, 0⟩, ⟨2, 95, 0⟩] := by
  have h1 : new_p1_end [(⟨0, 100, 0⟩ : Sample), ⟨1, 95, 0⟩, ⟨2, 95, 0⟩] = 1 := by
    norm_num [new_p1_end, new_p1_scan, grist_rows, grist_flow_col, grist_flow_from]
  have h2 : old_p1_end [(⟨0, 100, 0⟩ : Sample), ⟨1, 95, 0⟩, ⟨2, 95, 0⟩] = 5 := by
    norm_num [old_p1_end, old_p1_scan, grist_rows, grist_flow_col, grist_flow_from,
      process_start]
  refine ⟨h1, h2, fun hEq => ?_⟩
  have hhead := congrArg (fun l => l[0]?) hEq
  simp only [detect_phases_new, detect_phases, List.getElem?_cons_zero] at hhead
  rw [h1, h2] at hhead
  norm_num [Phase.mk.injEq] at hhead

/-- C10: both operations only read their input frame and append derived
columns to their own private copy: the sample fields carried through the
augmented frames are exactly the input, and re-running either operation on
the frame as the previous call left it reproduces identical results. -/
theorem C10_pure_frame (b : List Sample) (data : List HRow) :
    (grist_rows b).map Prod.fst = b ∧
    (calculate_heat_available_df data).map Prod.fst = data ∧
    detect_phases_new ((grist_rows b).map Prod.fst) = detect_phases_new b ∧
    calculate_heat_available ((calculate_heat_available_df data).map Prod.fst) =
      calculate_heat_available data := by
  have h1 : (grist_rows b).map Prod.fst = b :=
    List.map_fst_zip b (grist_flow_col b) (le_of_eq (grist_flow_col_length b).symm)
  have h2 : (calculate_heat_available_df data).map Prod.fst = data :=
    List.map_fst_zip data (calculate_heat_available data)
      (le_of_eq (calculate_heat_available_length data).symm)
  exact ⟨h1, h2, by rw [h1], by rw [h2]⟩
